import Mathlib

/-!
# Verification of the uat-orchestrator routing engine and streaming event interpreter

Shallow embedding of the two core subsystems of the repository:

* the rule-based / parameter-based routing engine
  (`packages/orchestrator/src/ours_aaif_orchestrator/agent.py`:
  `OrchestratorAgent.route`, `route_by_parameter`, `smart_route`, together with
  the data models in `models.py`), and
* the SSE streaming event interpreter of the Open WebUI pipe
  (`pipes/aaif_orchestrator_pipe.py`: `Pipe._handle_sse_event`,
  `_extract_from_result`, `_process_sse_stream` and their helpers).

Modelling conventions:

* Python `dict`s that are used as ordered maps (the agent catalog, the
  per-request `agent_tree["agents"]` map) become association lists that keep
  insertion order, exactly as Python 3.7+ dicts do.
* Python `float` scores become exact rationals (`ℚ`).  Every score produced by
  the code is of the form `base + min(priority * 0.01, 0.09)`; none of the
  claims depends on binary floating-point rounding.
* `re.search(pattern, query, re.IGNORECASE)` is an external library call; it is
  modelled by an oracle parameter `regexSearch : String → String → Option Bool`
  where `none` models `re.error` (invalid pattern, skipped with a warning) and
  `some b` models a successful search returning a match (`true`) or no match
  (`false`).
* Python truthiness of strings (`if text:`, `if self._fallback_agent:`) is
  modelled explicitly as "not the empty string"; `Optional` values are `Option`.
-/

namespace UatOrchestrator

/-! ## Data model (`models.py`) -/

/-- `AgentStatus` from `models.py`: availability status of a catalog agent. -/
inductive AgentStatus where
  | active
  | inactive
  | degraded
deriving DecidableEq, Repr

/-- `RoutingRule` from `models.py`: keywords, regex patterns and an integer
priority (default 0). -/
structure RoutingRule where
  keywords : List String
  patterns : List String
  priority : Int
deriving DecidableEq, Repr

/-- `AgentConfig` from `models.py`, restricted to the fields the routing code
reads: `status` and `routing_rules`.  The remaining fields (`name`, `url`,
`description`, `tags`, `owner`) are never consulted by `route`,
`route_by_parameter` or `smart_route`; the agent's name appears as the key of
the catalog dict built by `load_agents_config` (which maps `config.name` to the
config, and pydantic validates `name` with `min_length=1`). -/
structure AgentConfig where
  status : AgentStatus
  routing_rules : RoutingRule
deriving DecidableEq, Repr

/-- `RoutingResult` from `models.py`. -/
structure RoutingResult where
  selected_agent : String
  confidence : ℚ
  routing_reason : String
  fallback_agents : List String
deriving DecidableEq, Repr

/-- The orchestrator's catalog `self._agents : Dict[str, AgentConfig]`,
as an insertion-ordered association list. -/
abbrev Catalog := List (String × AgentConfig)

/-- `HandoffContext` (from `mask.core.state`) as used by `route_by_parameter`:
only its `context_data` dict is read.  A `None`/empty `context_data` is
modelled by the empty list (the code normalises with
`context_data = handoff_context.context_data or {}`). -/
structure HandoffContext where
  context_data : List (String × String)
deriving DecidableEq, Repr

/-! ## Routing engine (`agent.py`) -/

/-- Python's substring test `needle in haystack` on strings
(sequence containment of the code-point list). -/
def pyIn (needle haystack : String) : Bool :=
  decide (needle.data <:+: haystack.data)

/-- Python's `str.lower()`, as a code-point-wise map.  (`Char.toLower` lowers
the ASCII range; none of the claims exercises non-ASCII case folding — the
Chinese keywords in the scenarios are unaffected by lowercasing in both
Python and this model.) -/
def pyLower (s : String) : String := ⟨s.data.map Char.toLower⟩

/-- Insert an element into a list already sorted descending by `key`, placing
it *before* the first element whose key is `≤` its own.  Folding this over a
list yields the unique stable descending sort, which is what Python's
`sorted(..., key=..., reverse=True)` computes. -/
def insertDescBy {α β : Type} [LinearOrder β] (key : α → β) (x : α) : List α → List α
  | [] => [x]
  | y :: ys => if key y ≤ key x then x :: y :: ys else y :: insertDescBy key x ys

/-- Stable descending sort by `key`; behaviourally identical to Python's
`sorted(xs, key=key, reverse=True)` (both are the unique stable sort). -/
def sortDescBy {α β : Type} [LinearOrder β] (key : α → β) : List α → List α
  | [] => []
  | x :: xs => insertDescBy key x (sortDescBy key xs)

/-- The priority bonus `min(rules.priority * 0.01, 0.09)` from `route`. -/
def priorityBonus (priority : Int) : ℚ :=
  min ((priority : ℚ) * (1 / 100)) (9 / 100)

/-- Keyword-candidate score `0.9 + min(priority * 0.01, 0.09)` from `route`. -/
def keywordScore (priority : Int) : ℚ := 9 / 10 + priorityBonus priority

/-- Pattern-candidate score `0.8 + min(priority * 0.01, 0.09)` from `route`. -/
def patternScore (priority : Int) : ℚ := 8 / 10 + priorityBonus priority

/-- One iteration of the candidate loop of `OrchestratorAgent.route` for a
single catalog entry: skip inactive agents; first keyword whose lowercased text
is contained in the lowercased query wins (score `0.9 + bonus`, reason
`keyword_match:<keyword>`); only if no keyword matched, the first pattern whose
case-insensitive regex search succeeds wins (score `0.8 + bonus`, reason
`pattern_match:<pattern>`); a pattern raising `re.error` (oracle `none`) is
skipped.  Returns the candidate tuple `(agent_name, confidence, reason)` or
`none` when the agent contributes no candidate. -/
def agentCandidate (regexSearch : String → String → Option Bool)
    (query queryLower : String) (name : String) (config : AgentConfig) :
    Option (String × ℚ × String) :=
  if config.status ≠ AgentStatus.active then none
  else
    let rules := config.routing_rules
    match rules.keywords.find? (fun keyword => pyIn (pyLower keyword) queryLower) with
    | some keyword => some (name, keywordScore rules.priority, "keyword_match:" ++ keyword)
    | none =>
      match rules.patterns.find? (fun p => regexSearch p query == some true) with
      | some p => some (name, patternScore rules.priority, "pattern_match:" ++ p)
      | none => none

/-- `OrchestratorAgent.route` (`agent.py`, lines 148–243): rule-based routing.
Sort the catalog by priority descending (stable), collect at most one candidate
per active agent, stable-sort candidates by confidence descending, and either
select the top candidate (fallback list = next two candidate names plus the
configured fallback agent if truthy and not already present) or fall back with
confidence `0.5` and reason `"no_match:fallback"` and an empty fallback list. -/
def route (agents : Catalog) (fallback_agent : String)
    (regexSearch : String → String → Option Bool) (query : String) : RoutingResult :=
  let queryLower := pyLower query
  let sorted_agents := sortDescBy (fun x => x.2.routing_rules.priority) agents
  let candidates :=
    sorted_agents.filterMap (fun x => agentCandidate regexSearch query queryLower x.1 x.2)
  let sorted_candidates := sortDescBy (fun c => c.2.1) candidates
  match sorted_candidates with
  | [] =>
    { selected_agent := fallback_agent
      confidence := 1 / 2
      routing_reason := "no_match:fallback"
      fallback_agents := [] }
  | (selected, confidence, reason) :: rest =>
    let fallbacks := (rest.take 2).map (fun c => c.1)
    let fallbacks :=
      if fallback_agent ≠ "" ∧ fallback_agent ∉ fallbacks then fallbacks ++ [fallback_agent]
      else fallbacks
    { selected_agent := selected
      confidence := confidence
      routing_reason := reason
      fallback_agents := fallbacks }

/-- `OrchestratorAgent.route_by_parameter` (`agent.py`, lines 245–313):
parameter-based routing.  Returns `none` when the handoff context is absent,
has no (truthy) `target_agent`, or the target is missing from the catalog or
not active; otherwise a direct assignment with confidence `1.0`, reason
`"parameter:target_agent"` and fallback list `[fallback_agent]` when the
configured fallback is truthy. -/
def route_by_parameter (agents : Catalog) (fallback_agent : String)
    (handoff_context : Option HandoffContext) : Option RoutingResult :=
  match handoff_context with
  | none => none
  | some hc =>
    match hc.context_data.lookup "target_agent" with
    | none => none
    | some target_agent =>
      if target_agent = "" then none
      else
        match agents.lookup target_agent with
        | none => none
        | some config =>
          if config.status ≠ AgentStatus.active then none
          else
            some { selected_agent := target_agent
                   confidence := 1
                   routing_reason := "parameter:target_agent"
                   fallback_agents := if fallback_agent ≠ "" then [fallback_agent] else [] }

/-- `OrchestratorAgent.smart_route` (`agent.py`, lines 315–349): parameter
routing first, rule-based routing otherwise. -/
def smart_route (agents : Catalog) (fallback_agent : String)
    (regexSearch : String → String → Option Bool) (query : String)
    (handoff_context : Option HandoffContext) : RoutingResult :=
  match route_by_parameter agents fallback_agent handoff_context with
  | some param_result => param_result
  | none => route agents fallback_agent regexSearch query

/-! ## Streaming event interpreter (`pipes/aaif_orchestrator_pipe.py`)

The pipe consumes parsed SSE events (`_process_sse_stream` feeds each
JSON-decoded `data:` line to `_handle_sse_event`) and produces, per event, a
sequence of outputs while mutating the per-request `agent_tree` state.  The
model makes the state explicit and tags each produced item:

* `statusNote` — a side-channel `_emit_status(event_emitter, ...)` call;
* `liveText` — a `yield`ed text chunk (this includes the formatted
  `"**Error:** ..."` chunk yielded for error events);
* `trajectoryFlush` — the single `yield trajectory_section` at the
  status→answer transition.  `_render_trajectory` is a pure presentation
  function that returns the empty string iff the trajectory list is empty (a
  nonempty list always renders to a nonempty `<details>` block), so the model
  guards the flush on nonemptiness of the list and lets the flush item carry
  the trajectory entries it is rendered from rather than the rendered string
  (whose exact decoration also depends on wall-clock duration).

`agent_tree` fields not read by any logic (`root`, `current_path`,
`start_time`) are omitted. -/

/-- Part metadata, as read by the pipe: `event_type` (read with default `""`),
`is_propagated` (read with default `False`), `tool_name` (read with default
`"unknown"`).  A `None` or empty (falsy) metadata dict is modelled as `none`
at the use sites. -/
structure PartMeta where
  event_type : String
  is_propagated : Bool
  tool_name : Option String
deriving DecidableEq, Repr

/-- `Pipe._THINKING_EVENT_TYPES`. -/
def THINKING_EVENT_TYPES : List String :=
  ["agent_start", "llm_thinking", "tool_decision", "tool_start", "tool_end",
   "sub_agent_status"]

/-- `Pipe._HIDDEN_EVENT_TYPES`. -/
def HIDDEN_EVENT_TYPES : List String := ["agent_end"]

/-- `Pipe._is_thinking_event`: falsy metadata is never thinking; otherwise
membership of `event_type` in the thinking set (the code tests the same set
whether or not `is_propagated` is set, and so does the model). -/
def is_thinking_event (metadata : Option PartMeta) : Bool :=
  match metadata with
  | none => false
  | some m =>
    if m.is_propagated then THINKING_EVENT_TYPES.contains m.event_type
    else THINKING_EVENT_TYPES.contains m.event_type

/-- `Pipe._is_hidden_event`: falsy metadata is never hidden; otherwise
membership of `event_type` in the hidden set (`{"agent_end"}`). -/
def is_hidden_event (metadata : Option PartMeta) : Bool :=
  match metadata with
  | none => false
  | some m => HIDDEN_EVENT_TYPES.contains m.event_type

/-- A message part, in the three dict shapes `_get_part_info` distinguishes:
`kind == "text"`, a wrapped `root` dict, and the fallback shape; plus a
non-dict part (which yields neither text nor metadata). -/
inductive Part where
  | textKind (text : Option String) (metadata : Option PartMeta)
  | rootWrap (text : Option String) (metadata : Option PartMeta)
  | plain (text : Option String) (metadata : Option PartMeta)
  | nonDict
deriving DecidableEq, Repr

/-- `Pipe._get_part_info`: extract `(text, metadata)` from a part.  All three
dict shapes extract the same two fields; a non-dict part gives `(None, None)`. -/
def get_part_info : Part → Option String × Option PartMeta
  | .textKind text metadata => (text, metadata)
  | .rootWrap text metadata => (text, metadata)
  | .plain text metadata => (text, metadata)
  | .nonDict => (none, none)

/-- `Pipe._get_part_text`. -/
def get_part_text (part : Part) : Option String := (get_part_info part).1

/-- An entry of `agent_tree["trajectory"]`: the dict
`{"text": ..., "event_type": metadata.get("event_type", ""), "metadata": ...}`
appended for each thinking event. -/
structure TrajectoryEntry where
  text : String
  event_type : String
  metadata : Option PartMeta
deriving DecidableEq, Repr

/-- A value of the `agent_tree["agents"]` map:
`{"state": ..., "tools_called": [...]}`. -/
structure AgentInfo where
  state : String
  tools_called : List String
deriving DecidableEq, Repr

/-- The per-request mutable state `agent_tree` (fields read by the logic). -/
structure AgentTree where
  agents : List (String × AgentInfo)
  has_status : Bool
  answer_started : Bool
  trajectory : List TrajectoryEntry
deriving DecidableEq, Repr

/-- The `agent_tree` as initialised in `Pipe.pipe`. -/
def initialTree : AgentTree :=
  { agents := [], has_status := false, answer_started := false, trajectory := [] }

/-- One tagged output of the interpreter (see the section header). -/
inductive OutItem where
  | statusNote (text : String)
  | trajectoryFlush (entries : List TrajectoryEntry)
  | liveText (text : String)
deriving DecidableEq, Repr

/-- Python's `a or b` for an optional string `a` and a string `b`
(used for `data.get("agentName") or data.get("taskId", "unknown")`). -/
def pyOr (a : Option String) (b : String) : String :=
  match a with
  | some s => if s = "" then b else s
  | none => b

/-- `agent_tree["agents"]` update in the `status-update` branch: insert a fresh
`{"state": state, "tools_called": []}` when the name is new, otherwise update
only the `state` field. -/
def updateAgentState (agents : List (String × AgentInfo)) (name state : String) :
    List (String × AgentInfo) :=
  if (agents.lookup name).isSome then
    agents.map (fun kv => if kv.1 = name then (kv.1, { kv.2 with state := state }) else kv)
  else agents ++ [(name, ⟨state, []⟩)]

/-- Append a tool name to `agents[name]["tools_called"]` when `name` is present
(the `if agent_name in agent_tree["agents"]` guard); otherwise no change. -/
def addToolCall (agents : List (String × AgentInfo)) (name tool : String) :
    List (String × AgentInfo) :=
  if (agents.lookup name).isSome then
    agents.map (fun kv =>
      if kv.1 = name then (kv.1, { kv.2 with tools_called := kv.2.tools_called ++ [tool] })
      else kv)
  else agents

/-- Unconditional dict assignment `agents[task_id] = info` (the `task` branch
of `_extract_from_result`): replace in place when present, append when new. -/
def setAgent (agents : List (String × AgentInfo)) (name : String) (info : AgentInfo) :
    List (String × AgentInfo) :=
  if (agents.lookup name).isSome then
    agents.map (fun kv => if kv.1 = name then (kv.1, info) else kv)
  else agents ++ [(name, info)]

/-- The `for part in parts` loop over artifact/message parts: yield each truthy
text (`_get_part_text`), skipping `None` and `""`. -/
def partsTexts (parts : List Part) : List OutItem :=
  parts.filterMap (fun part =>
    match get_part_text part with
    | some text => if text = "" then none else some (OutItem.liveText text)
    | none => none)

/-- One iteration of the `for part in parts` loop over a status message's
parts (lines 363–388 and 486–505 of the pipe): skip parts without truthy text;
drop hidden parts; for thinking parts set `has_status`, emit the side-channel
status, append a trajectory entry and — only on the `_handle_sse_event` path
(`trackTools = true`), mirroring that the `_extract_from_result` path omits the
tool-tracking step — record `tool_start` tool names against `agent_name`;
yield any other text as a live chunk. -/
def handleStatusPart (trackTools : Bool) (agent_name : String)
    (acc : AgentTree × List OutItem) (part : Part) : AgentTree × List OutItem :=
  let tree := acc.1
  let out := acc.2
  let info := get_part_info part
  let metadata := info.2
  match info.1 with
  | none => (tree, out)
  | some text =>
    if text = "" then (tree, out)
    else if is_hidden_event metadata then (tree, out)
    else if is_thinking_event metadata then
      let tree := { tree with has_status := true }
      let out := out ++ [OutItem.statusNote text]
      let entryType := match metadata with | some m => m.event_type | none => ""
      let tree := { tree with trajectory := tree.trajectory ++ [⟨text, entryType, metadata⟩] }
      let tree :=
        if trackTools then
          match metadata with
          | some m =>
            if m.event_type = "tool_start" then
              { tree with agents := addToolCall tree.agents agent_name (m.tool_name.getD "unknown") }
            else tree
          | none => tree
        else tree
      (tree, out)
    else (tree, out ++ [OutItem.liveText text])

/-- The shared `artifact-update` handling (lines 390–408 and 507–523): on the
first artifact while `has_status` holds and the answer has not started, set
`answer_started`, emit the final `"Completed"` status and flush the trajectory
(the rendered section is nonempty iff the trajectory list is); then yield the
artifact parts' texts. -/
def handleArtifactEvent (tree : AgentTree) (parts : List Part) :
    AgentTree × List OutItem :=
  let step :=
    if tree.has_status && !tree.answer_started then
      let tree := { tree with answer_started := true }
      let out := [OutItem.statusNote "Completed"]
      let out :=
        if tree.trajectory.isEmpty then out
        else out ++ [OutItem.trajectoryFlush tree.trajectory]
      (tree, out)
    else (tree, ([] : List OutItem))
  (step.1, step.2 ++ partsTexts parts)

/-- The `result` objects `_extract_from_result` distinguishes on
`result.get("kind")`.  For a `task`, `artifacts` is the list of artifacts, each
reduced to its parts, and `statusMessage` the parts of a truthy
`status.message` dict (`none` when absent/falsy). -/
inductive ResultObj where
  | message (parts : List Part)
  | task (id : Option String) (state : String) (artifacts : List (List Part))
      (statusMessage : Option (List Part))
  | statusUpdate (statusMessage : Option (List Part))
  | artifactUpdate (parts : List Part)
  | other
deriving DecidableEq, Repr

/-- A parsed SSE event, as dispatched by `_handle_sse_event`: a JSON-RPC
`result` wrapper, an `error` object (whose `message` is read with default
`"Unknown error"`), or a direct A2A event keyed on `kind`.  `other` covers
events with an unrecognised or missing `kind` (no branch taken). -/
inductive Event where
  | result (r : ResultObj)
  | error (message : Option String)
  | statusUpdate (agentName : Option String) (taskId : Option String) (state : String)
      (statusMessage : Option (List Part))
  | artifactUpdate (parts : List Part)
  | toolCall (toolName : Option String) (agentName : Option String)
  | message (parts : List Part)
  | other
deriving DecidableEq, Repr

/-- `Pipe._extract_from_result` (lines 426–523). -/
def extract_from_result (tree : AgentTree) : ResultObj → AgentTree × List OutItem
  | .message parts => (tree, partsTexts parts)
  | .task id state artifacts statusMessage =>
    let task_id := id.getD "unknown"
    let tree := { tree with agents := setAgent tree.agents task_id ⟨state, []⟩ }
    if artifacts.isEmpty then
      match statusMessage with
      | some parts => (tree, partsTexts parts)
      | none => (tree, [])
    else (tree, (artifacts.map partsTexts).flatten)
  | .statusUpdate statusMessage =>
    match statusMessage with
    | some parts => parts.foldl (handleStatusPart false "") (tree, [])
    | none => (tree, [])
  | .artifactUpdate parts => handleArtifactEvent tree parts
  | .other => (tree, [])

/-- `Pipe._handle_sse_event` (lines 314–424): dispatch one parsed SSE event. -/
def handle_sse_event (tree : AgentTree) : Event → AgentTree × List OutItem
  | .result r => extract_from_result tree r
  | .error message =>
    (tree, [OutItem.liveText ("**Error:** " ++ message.getD "Unknown error")])
  | .statusUpdate agentName taskId state statusMessage =>
    let agent_name := pyOr agentName (taskId.getD "unknown")
    let tree := { tree with agents := updateAgentState tree.agents agent_name state }
    match statusMessage with
    | some parts => parts.foldl (handleStatusPart true agent_name) (tree, [])
    | none => (tree, [])
  | .artifactUpdate parts => handleArtifactEvent tree parts
  | .toolCall toolName agentName =>
    ({ tree with
        agents := addToolCall tree.agents (agentName.getD "unknown") (toolName.getD "unknown") },
     [])
  | .message parts => (tree, partsTexts parts)
  | .other => (tree, [])

/-- `Pipe._process_sse_stream` (lines 279–312): fold `_handle_sse_event` over
the ordered, already-JSON-decoded event sequence, concatenating the outputs in
order.  (Lines that fail to JSON-decode are skipped by the code before
reaching `_handle_sse_event` and therefore do not appear in the sequence.) -/
def process_sse_stream (tree : AgentTree) : List Event → AgentTree × List OutItem
  | [] => (tree, [])
  | e :: es =>
    let step := handle_sse_event tree e
    let rest := process_sse_stream step.1 es
    (rest.1, step.2 ++ rest.2)

/-! ### Derived classification predicates used to state the claims -/

/-- The number of `trajectoryFlush` items in an output sequence. -/
def countTrajectory (out : List OutItem) : Nat :=
  out.countP (fun o => match o with | .trajectoryFlush _ => true | _ => false)

/-- A part that the status-message loop classifies as thinking: truthy text,
not hidden, thinking metadata. -/
def partThinking (part : Part) : Bool :=
  match get_part_info part with
  | (some text, metadata) =>
    text ≠ "" && !is_hidden_event metadata && is_thinking_event metadata
  | (none, _) => false

/-- A status event (direct or `result`-wrapped) carrying at least one part
classified as a thinking event — exactly the events that can set
`has_status` and extend the trajectory. -/
def eventThinking : Event → Bool
  | .statusUpdate _ _ _ (some parts) => parts.any partThinking
  | .result (.statusUpdate (some parts)) => parts.any partThinking
  | _ => false

/-- The parts of an artifact-update event (direct or `result`-wrapped) —
exactly the events that can set `answer_started` and flush the trajectory. -/
def artifactEventParts : Event → Option (List Part)
  | .artifactUpdate parts => some parts
  | .result (.artifactUpdate parts) => some parts
  | _ => none

/-- A part that the status-message loop drops as hidden: truthy text with
hidden (`agent_end`) metadata. -/
def partHidden (part : Part) : Bool :=
  match get_part_info part with
  | (some text, metadata) => text ≠ "" && is_hidden_event metadata
  | (none, _) => false

/-- A part list with the hidden (`agent_end`) truthy-text parts removed. -/
def removeHiddenParts (parts : List Part) : List Part :=
  parts.filter (fun part => !partHidden part)

/-! ## Concrete test fixtures (used by witnesses and counterexamples) -/

/-- Scenario A expert: `hr-expert`, keywords `["請假"]`, priority 10, active. -/
def hrConfig : AgentConfig :=
  { status := .active, routing_rules := { keywords := ["請假"], patterns := [], priority := 10 } }

/-- Scenario A catalog. -/
def scenarioCatalog : Catalog := [("hr-expert", hrConfig)]

/-- A regex oracle under which no pattern matches. -/
def noRegex : String → String → Option Bool := fun _ _ => some false

/-- Two active experts sharing the keyword `deploy`, priorities 5 and 3. -/
def deployHighConfig : AgentConfig :=
  { status := .active, routing_rules := { keywords := ["deploy"], patterns := [], priority := 5 } }

/-- See `deployHighConfig`. -/
def deployLowConfig : AgentConfig :=
  { status := .active, routing_rules := { keywords := ["deploy"], patterns := [], priority := 3 } }

/-- A handoff context whose override names the catalog's active expert. -/
def overrideContext : HandoffContext := ⟨[("target_agent", "hr-expert")]⟩

/-- A handoff context whose override names an expert absent from
`scenarioCatalog` (Scenario B). -/
def missingContext : HandoffContext := ⟨[("target_agent", "jira-agent")]⟩

/-- Metadata of a thinking (`llm_thinking`) part. -/
def thinkingMeta : PartMeta :=
  { event_type := "llm_thinking", is_propagated := false, tool_name := none }

/-- Metadata of a hidden (`agent_end`) part. -/
def agentEndMeta : PartMeta :=
  { event_type := "agent_end", is_propagated := false, tool_name := none }

/-- A status-update event carrying one thinking part. -/
def thinkingEvent : Event :=
  .statusUpdate (some "orchestrator") none "working"
    (some [.textKind (some "Analyzing") (some thinkingMeta)])

/-- An artifact-update event carrying the text `"x"`. -/
def artifactX : Event := .artifactUpdate [.textKind (some "x") none]

/-- An artifact-update event carrying the text `"y"`. -/
def artifactY : Event := .artifactUpdate [.textKind (some "y") none]

/-- A message event whose only part is text-bearing with `agent_end`
metadata. -/
def hiddenMessageEvent : Event := .message [.textKind (some "bye") (some agentEndMeta)]

/-! ## Lemmas about the routing engine -/

theorem mem_insertDescBy {α β : Type} [LinearOrder β] (key : α → β) (x a : α) (l : List α) :
    a ∈ insertDescBy key x l ↔ a = x ∨ a ∈ l := by
  induction l with
  | nil => simp [insertDescBy]
  | cons y ys ih =>
    simp only [insertDescBy]
    split
    · simp [List.mem_cons]
    · simp only [List.mem_cons, ih]
      tauto

theorem mem_sortDescBy {α β : Type} [LinearOrder β] (key : α → β) (a : α) (l : List α) :
    a ∈ sortDescBy key l ↔ a ∈ l := by
  induction l with
  | nil => simp [sortDescBy]
  | cons x xs ih => simp [sortDescBy, mem_insertDescBy, ih]

theorem sortDescBy_pair {α β : Type} [LinearOrder β] (key : α → β) (x y : α) :
    sortDescBy key [x, y] = if key y ≤ key x then [x, y] else [y, x] := by
  simp [sortDescBy, insertDescBy]

/-- A candidate produced for a catalog entry carries that entry's name. -/
theorem agentCandidate_name (regexSearch : String → String → Option Bool)
    (query queryLower name : String) (config : AgentConfig) (c : String × ℚ × String)
    (h : agentCandidate regexSearch query queryLower name config = some c) :
    c.1 = name := by
  simp only [agentCandidate] at h
  split at h
  · exact absurd h (by simp)
  · split at h
    · cases h
      rfl
    · split at h
      · cases h
        rfl
      · exact absurd h (by simp)

/-- The selected agent of `route` is either the configured fallback or the
name of a catalog entry. -/
theorem route_selected_mem (agents : Catalog) (fallback_agent : String)
    (regexSearch : String → String → Option Bool) (query : String) :
    (route agents fallback_agent regexSearch query).selected_agent = fallback_agent ∨
    ∃ p ∈ agents, (route agents fallback_agent regexSearch query).selected_agent = p.1 := by
  simp only [route]
  split
  · left
    rfl
  · rename_i sel conf reason rest heq
    right
    have hmem : (sel, conf, reason) ∈
        sortDescBy (fun c => c.2.1)
          ((sortDescBy (fun x => x.2.routing_rules.priority) agents).filterMap
            (fun x => agentCandidate regexSearch query (pyLower query) x.1 x.2)) := by
      rw [heq]
      exact List.mem_cons_self _ _
    rw [mem_sortDescBy] at hmem
    obtain ⟨x, hx, hfx⟩ := List.mem_filterMap.mp hmem
    refine ⟨x, (mem_sortDescBy _ _ _).mp hx, ?_⟩
    exact agentCandidate_name _ _ _ _ _ _ hfx

/-- When no catalog entry contributes a candidate, `route` returns the
fallback decision. -/
theorem route_no_candidates (agents : Catalog) (fallback_agent : String)
    (regexSearch : String → String → Option Bool) (query : String)
    (h : ∀ p ∈ agents, agentCandidate regexSearch query (pyLower query) p.1 p.2 = none) :
    route agents fallback_agent regexSearch query =
      { selected_agent := fallback_agent, confidence := 1 / 2,
        routing_reason := "no_match:fallback", fallback_agents := [] } := by
  simp only [route]
  have hfm : (sortDescBy (fun x => x.2.routing_rules.priority) agents).filterMap
      (fun x => agentCandidate regexSearch query (pyLower query) x.1 x.2) = [] := by
    rw [List.filterMap_eq_nil_iff]
    intro a ha
    exact h a ((mem_sortDescBy _ _ _).mp ha)
  rw [hfm]
  rfl

/-- A valid parameter-routing result selects the (non-empty) target name. -/
theorem route_by_parameter_selected (agents : Catalog) (fallback_agent : String)
    (handoff_context : Option HandoffContext) (r : RoutingResult)
    (h : route_by_parameter agents fallback_agent handoff_context = some r) :
    r.selected_agent ≠ "" := by
  simp only [route_by_parameter] at h
  split at h
  · exact absurd h (by simp)
  · split at h
    · exact absurd h (by simp)
    · rename_i hc target ht
      split at h
      · exact absurd h (by simp)
      · rename_i hne
        split at h
        · exact absurd h (by simp)
        · split at h
          · exact absurd h (by simp)
          · cases h
            exact hne

/-! ## Claim C1 — override precedence -/

/-- C1, counterexample.  The claim asserts that a valid override yields
`routing_reason = "parameter_override"`.  At a concrete input that satisfies
all of the claim's hypotheses (the override `"hr-expert"` is present in the
catalog with status active), the code returns the reason string
`"parameter:target_agent"`, which is not `"parameter_override"`; the
confidence is `1.0` as claimed. -/
theorem c1_counterexample :
    scenarioCatalog.lookup "hr-expert" = some hrConfig ∧
    hrConfig.status = AgentStatus.active ∧
    (smart_route scenarioCatalog "general" noRegex "任何訊息"
        (some overrideContext)).routing_reason = "parameter:target_agent" ∧
    (smart_route scenarioCatalog "general" noRegex "任何訊息"
        (some overrideContext)).routing_reason ≠ "parameter_override" ∧
    (smart_route scenarioCatalog "general" noRegex "任何訊息"
        (some overrideContext)).confidence = 1 := by
  decide

/-- C1, amended: if the override names an expert present in the catalog with
status active, then `route_by_parameter` and `smart_route` return a decision
with `routing_reason = "parameter:target_agent"` (the code's actual override
reason tag; the spec calls this tag `parameter_override`) and confidence
`1.0`, regardless of query content. -/
theorem c1_override_precedence_amended (agents : Catalog) (fallback_agent : String)
    (regexSearch : String → String → Option Bool) (query : String)
    (hc : HandoffContext) (target : String) (config : AgentConfig)
    (ht : hc.context_data.lookup "target_agent" = some target)
    (hne : target ≠ "")
    (hfound : agents.lookup target = some config)
    (hactive : config.status = AgentStatus.active) :
    (∃ r, route_by_parameter agents fallback_agent (some hc) = some r ∧
      r.routing_reason = "parameter:target_agent" ∧ r.confidence = 1 ∧
      r.selected_agent = target) ∧
    (smart_route agents fallback_agent regexSearch query (some hc)).routing_reason =
      "parameter:target_agent" ∧
    (smart_route agents fallback_agent regexSearch query (some hc)).confidence = 1 := by
  have hparam : route_by_parameter agents fallback_agent (some hc) =
      some { selected_agent := target, confidence := 1,
             routing_reason := "parameter:target_agent",
             fallback_agents := if fallback_agent ≠ "" then [fallback_agent] else [] } := by
    simp only [route_by_parameter, ht, hfound]
    rw [if_neg hne, if_neg (by simp [hactive])]
  refine ⟨⟨_, hparam, rfl, rfl, rfl⟩, ?_, ?_⟩ <;>
    simp only [smart_route, hparam]

/-- C1, witness for the amended theorem. -/
theorem c1_override_precedence_witness :
    (∃ r, route_by_parameter scenarioCatalog "general" (some overrideContext) = some r ∧
      r.routing_reason = "parameter:target_agent" ∧ r.confidence = 1 ∧
      r.selected_agent = "hr-expert") ∧
    (smart_route scenarioCatalog "general" noRegex "任何訊息"
        (some overrideContext)).routing_reason = "parameter:target_agent" ∧
    (smart_route scenarioCatalog "general" noRegex "任何訊息"
        (some overrideContext)).confidence = 1 :=
  c1_override_precedence_amended scenarioCatalog "general" noRegex "任何訊息"
    overrideContext "hr-expert" hrConfig (by decide) (by decide) (by decide) (by decide)

/-! ## Claim C3 — totality of routing -/

/-- C3: for every query and every catalog state (including the empty catalog),
`route` and `smart_route` return a decision with a non-empty selected agent,
and (being total functions) never raise an ambiguity error.  The configured
fallback agent is assumed truthy (its default is `"general-assistant"`; the
code guards `if self._fallback_agent` elsewhere for the same reason), and the
catalog keys are assumed non-empty, which `load_agents_config` guarantees by
keying on the pydantic-validated `config.name` (`min_length=1`). -/
theorem c3_routing_totality (agents : Catalog) (fallback_agent : String)
    (regexSearch : String → String → Option Bool) (query : String)
    (handoff_context : Option HandoffContext)
    (hfb : fallback_agent ≠ "")
    (hnames : ∀ p ∈ agents, p.1 ≠ "") :
    (route agents fallback_agent regexSearch query).selected_agent ≠ "" ∧
    (smart_route agents fallback_agent regexSearch query handoff_context).selected_agent ≠ "" := by
  have hroute : (route agents fallback_agent regexSearch query).selected_agent ≠ "" := by
    rcases route_selected_mem agents fallback_agent regexSearch query with h | ⟨p, hp, h⟩
    · rw [h]
      exact hfb
    · rw [h]
      exact hnames p hp
  refine ⟨hroute, ?_⟩
  simp only [smart_route]
  split
  · rename_i r hr
    exact route_by_parameter_selected agents fallback_agent handoff_context r hr
  · exact hroute

/-- C3, witness: empty catalog and an opaque query. -/
theorem c3_routing_totality_witness :
    (route ([] : Catalog) "general-assistant" noRegex "任何請求").selected_agent ≠ "" ∧
    (smart_route ([] : Catalog) "general-assistant" noRegex "任何請求" none).selected_agent ≠ "" :=
  c3_routing_totality [] "general-assistant" noRegex "任何請求" none (by decide)
    (by intro p hp; cases hp)

/-! ## Claim C4 — no-match fallback decision -/

/-- C4, counterexample.  The claim asserts `routing_reason = "no_match_fallback"`.
On the empty catalog (where no keyword or pattern can match), the code returns
the reason string `"no_match:fallback"`; selected agent, confidence `0.5` and
the empty fallback list are as claimed. -/
theorem c4_counterexample :
    route ([] : Catalog) "general-assistant" noRegex "我想請假三天" =
      { selected_agent := "general-assistant", confidence := 1 / 2,
        routing_reason := "no_match:fallback", fallback_agents := [] } ∧
    (route ([] : Catalog) "general-assistant" noRegex "我想請假三天").routing_reason ≠
      "no_match_fallback" :=
  ⟨rfl, by decide⟩

/-- C4, amended: when no active expert's keyword or pattern matches the query
(in particular for the empty catalog), `route` returns the configured fallback
expert with confidence `0.5`, an empty fallback list, and routing reason
`"no_match:fallback"` (the code's actual no-match reason tag; the spec calls
this tag `no_match_fallback`). -/
theorem c4_no_match_fallback_amended (agents : Catalog) (fallback_agent : String)
    (regexSearch : String → String → Option Bool) (query : String)
    (hnomatch : ∀ p ∈ agents, p.2.status = AgentStatus.active →
      (∀ kw ∈ p.2.routing_rules.keywords, pyIn (pyLower kw) (pyLower query) = false) ∧
      (∀ pat ∈ p.2.routing_rules.patterns, regexSearch pat query ≠ some true)) :
    route agents fallback_agent regexSearch query =
      { selected_agent := fallback_agent, confidence := 1 / 2,
        routing_reason := "no_match:fallback", fallback_agents := [] } := by
  refine route_no_candidates agents fallback_agent regexSearch query ?_
  intro p hp
  simp only [agentCandidate]
  split
  · rfl
  · rename_i hact
    have hactive : p.2.status = AgentStatus.active := by
      by_contra hne
      exact hact hne
    obtain ⟨hkw, hpat⟩ := hnomatch p hp hactive
    have hfind1 : p.2.routing_rules.keywords.find?
        (fun keyword => pyIn (pyLower keyword) (pyLower query)) = none := by
      rw [List.find?_eq_none]
      intro kw hmem
      simp [hkw kw hmem]
    have hfind2 : p.2.routing_rules.patterns.find?
        (fun pat => regexSearch pat query == some true) = none := by
      rw [List.find?_eq_none]
      intro pat hmem
      simpa using hpat pat hmem
    rw [hfind1, hfind2]

/-- C4, witness for the amended theorem: one active agent whose keyword does
not occur in the query and whose pattern does not match. -/
theorem c4_no_match_fallback_witness :
    route [("hr-expert", hrConfig)] "general-assistant" noRegex "completely unrelated" =
      { selected_agent := "general-assistant", confidence := 1 / 2,
        routing_reason := "no_match:fallback", fallback_agents := [] } :=
  c4_no_match_fallback_amended [("hr-expert", hrConfig)] "general-assistant" noRegex
    "completely unrelated" (by decide)

/-! ## Claim C5 — Scenario A -/

/-- C5, counterexample.  The claim asserts confidence ≈ 0.91 for Scenario A
(priority 10).  The code computes `0.9 + min(10 * 0.01, 0.09) = 0.99`, which
exceeds `0.91` by `0.08` — far outside any reasonable reading of
"approximately". -/
theorem c5_counterexample :
    (route scenarioCatalog "general" noRegex "我想請假三天").confidence = 99 / 100 ∧
    (91 : ℚ) / 100 + 5 / 100 <
      (route scenarioCatalog "general" noRegex "我想請假三天").confidence := by
  have hconf : (route scenarioCatalog "general" noRegex "我想請假三天").confidence =
      keywordScore 10 := rfl
  have hval : keywordScore 10 = 99 / 100 := by
    unfold keywordScore priorityBonus
    rw [min_def]
    norm_num
  rw [hconf, hval]
  norm_num

/-- C5, amended: for the Scenario A catalog (`hr-expert`, keywords `["請假"]`,
priority 10, active; fallback `"general"`), routing the query `"我想請假三天"`
with no override selects `hr-expert` with reason `"keyword_match:請假"` (which
starts with `"keyword_match:"`) and confidence `0.99` — the capped score
`0.9 + min(10 * 0.01, 0.09)` — not ≈ 0.91. -/
theorem c5_scenario_a_amended :
    route scenarioCatalog "general" noRegex "我想請假三天" =
      { selected_agent := "hr-expert", confidence := 99 / 100,
        routing_reason := "keyword_match:" ++ "請假", fallback_agents := ["general"] } := by
  have hval : keywordScore 10 = 99 / 100 := by
    unfold keywordScore priorityBonus
    rw [min_def]
    norm_num
  rw [← hval]
  rfl

/-! ## Claim C8 — override fallthrough -/

/-- C8: if the override names an expert missing from the catalog, or present
but not active, `smart_route` returns exactly the result of rule-based
`route` without any override. -/
theorem c8_override_fallthrough (agents : Catalog) (fallback_agent : String)
    (regexSearch : String → String → Option Bool) (query : String)
    (hc : HandoffContext) (target : String)
    (ht : hc.context_data.lookup "target_agent" = some target)
    (hne : target ≠ "")
    (hmiss : agents.lookup target = none ∨
      ∃ config, agents.lookup target = some config ∧ config.status ≠ AgentStatus.active) :
    smart_route agents fallback_agent regexSearch query (some hc) =
      route agents fallback_agent regexSearch query := by
  have hparam : route_by_parameter agents fallback_agent (some hc) = none := by
    simp only [route_by_parameter, ht]
    rw [if_neg hne]
    rcases hmiss with h | ⟨config, hfound, hstatus⟩
    · rw [h]
    · simp only [hfound]
      exact if_pos hstatus
  simp only [smart_route, hparam]

/-- C8, witness: Scenario B — override `"jira-agent"` absent from the
Scenario A catalog falls through to rule routing. -/
theorem c8_override_fallthrough_witness :
    smart_route scenarioCatalog "general" noRegex "我想請假三天" (some missingContext) =
      route scenarioCatalog "general" noRegex "我想請假三天" :=
  c8_override_fallthrough scenarioCatalog "general" noRegex "我想請假三天"
    missingContext "jira-agent" (by decide) (by decide) (Or.inl (by decide))

/-! ## Claim C9 — priority ordering among keyword matches -/

/-- C9: for a catalog of two active experts that both match the query by
keyword, the higher-priority expert is selected whichever order the catalog
lists them in (the candidate sort is stable and the catalog is pre-sorted by
priority), its score is at least the other's, and whenever the two scores
differ the higher-priority score is strictly larger (the bonus
`min(priority * 0.01, 0.09)` is monotone in the priority). -/
theorem c9_priority_ordering (n1 n2 fallback_agent query : String)
    (c1 c2 : AgentConfig) (regexSearch : String → String → Option Bool)
    (h1 : c1.status = AgentStatus.active) (h2 : c2.status = AgentStatus.active)
    (k1 k2 : String)
    (hk1 : c1.routing_rules.keywords.find?
      (fun kw => pyIn (pyLower kw) (pyLower query)) = some k1)
    (hk2 : c2.routing_rules.keywords.find?
      (fun kw => pyIn (pyLower kw) (pyLower query)) = some k2)
    (hp : c2.routing_rules.priority < c1.routing_rules.priority)
    (agents : Catalog)
    (hA : agents = [(n1, c1), (n2, c2)] ∨ agents = [(n2, c2), (n1, c1)]) :
    (route agents fallback_agent regexSearch query).selected_agent = n1 ∧
    (route agents fallback_agent regexSearch query).confidence =
      keywordScore c1.routing_rules.priority ∧
    keywordScore c2.routing_rules.priority ≤ keywordScore c1.routing_rules.priority ∧
    (keywordScore c1.routing_rules.priority ≠ keywordScore c2.routing_rules.priority →
      keywordScore c2.routing_rules.priority < keywordScore c1.routing_rules.priority) := by
  have hmono : keywordScore c2.routing_rules.priority ≤ keywordScore c1.routing_rules.priority := by
    unfold keywordScore priorityBonus
    have hcast : (c2.routing_rules.priority : ℚ) ≤ (c1.routing_rules.priority : ℚ) := by
      exact_mod_cast hp.le
    have hmul : (c2.routing_rules.priority : ℚ) * (1 / 100) ≤
        (c1.routing_rules.priority : ℚ) * (1 / 100) := by
      apply mul_le_mul_of_nonneg_right hcast
      norm_num
    exact add_le_add_left (min_le_min hmul le_rfl) _
  have hca : agentCandidate regexSearch query (pyLower query) n1 c1 =
      some (n1, keywordScore c1.routing_rules.priority, "keyword_match:" ++ k1) := by
    simp only [agentCandidate, h1, hk1]
    rw [if_neg (by simp [h1])]
  have hcb : agentCandidate regexSearch query (pyLower query) n2 c2 =
      some (n2, keywordScore c2.routing_rules.priority, "keyword_match:" ++ k2) := by
    simp only [agentCandidate, h2, hk2]
    rw [if_neg (by simp [h2])]
  have hsortA : sortDescBy (fun x : String × AgentConfig => x.2.routing_rules.priority) agents =
      [(n1, c1), (n2, c2)] := by
    rcases hA with h | h <;> subst h <;> rw [sortDescBy_pair]
    · rw [if_pos hp.le]
    · rw [if_neg (not_le.mpr hp)]
  have hroute : route agents fallback_agent regexSearch query =
      route [(n1, c1), (n2, c2)] fallback_agent regexSearch query := by
    simp only [route, hsortA, sortDescBy_pair, if_pos hp.le]
  rw [hroute]
  simp only [route, sortDescBy_pair, if_pos hp.le, List.filterMap_cons, hca, hcb,
    List.filterMap_nil, if_pos hmono]
  exact ⟨trivial, trivial, hmono, fun hne => lt_of_le_of_ne hmono (Ne.symm hne)⟩

/-- C9, witness: two active experts with keyword `deploy`, priorities 5 > 3,
listed lower-priority-first in the catalog. -/
theorem c9_priority_ordering_witness :
    (route [("ops-low", deployLowConfig), ("ops-high", deployHighConfig)] "general" noRegex
        "please deploy now").selected_agent = "ops-high" ∧
    (route [("ops-low", deployLowConfig), ("ops-high", deployHighConfig)] "general" noRegex
        "please deploy now").confidence = keywordScore deployHighConfig.routing_rules.priority ∧
    keywordScore deployLowConfig.routing_rules.priority ≤
      keywordScore deployHighConfig.routing_rules.priority ∧
    (keywordScore deployHighConfig.routing_rules.priority ≠
        keywordScore deployLowConfig.routing_rules.priority →
      keywordScore deployLowConfig.routing_rules.priority <
        keywordScore deployHighConfig.routing_rules.priority) :=
  c9_priority_ordering "ops-high" "ops-low" "general" "please deploy now"
    deployHighConfig deployLowConfig noRegex (by decide) (by decide)
    "deploy" "deploy" (by decide) (by decide) (by decide)
    [("ops-low", deployLowConfig), ("ops-high", deployHighConfig)] (Or.inr rfl)

/-! ## Claim C10 — determinism of `route` -/

/-- C10: `route` is deterministic — two invocations on equal catalog, fallback
configuration, regex oracle and query produce results that agree in all four
fields.  In this embedding `route` is a pure function of those inputs, which
mirrors the Python method body: it only reads `self._agents` (iteration and
local lists; no assignment), so the catalog mapping is unchanged by the
call. -/
theorem c10_route_deterministic (a1 a2 : Catalog) (fb1 fb2 : String)
    (rs1 rs2 : String → String → Option Bool) (q1 q2 : String)
    (ha : a1 = a2) (hfb : fb1 = fb2) (hrs : rs1 = rs2) (hq : q1 = q2) :
    route a1 fb1 rs1 q1 = route a2 fb2 rs2 q2 ∧
    (route a1 fb1 rs1 q1).selected_agent = (route a2 fb2 rs2 q2).selected_agent ∧
    (route a1 fb1 rs1 q1).confidence = (route a2 fb2 rs2 q2).confidence ∧
    (route a1 fb1 rs1 q1).routing_reason = (route a2 fb2 rs2 q2).routing_reason ∧
    (route a1 fb1 rs1 q1).fallback_agents = (route a2 fb2 rs2 q2).fallback_agents := by
  subst ha hfb hrs hq
  exact ⟨rfl, rfl, rfl, rfl, rfl⟩

/-- C10, witness. -/
theorem c10_route_deterministic_witness :
    route scenarioCatalog "general" noRegex "我想請假三天" =
      route scenarioCatalog "general" noRegex "我想請假三天" ∧
    (route scenarioCatalog "general" noRegex "我想請假三天").selected_agent =
      (route scenarioCatalog "general" noRegex "我想請假三天").selected_agent ∧
    (route scenarioCatalog "general" noRegex "我想請假三天").confidence =
      (route scenarioCatalog "general" noRegex "我想請假三天").confidence ∧
    (route scenarioCatalog "general" noRegex "我想請假三天").routing_reason =
      (route scenarioCatalog "general" noRegex "我想請假三天").routing_reason ∧
    (route scenarioCatalog "general" noRegex "我想請假三天").fallback_agents =
      (route scenarioCatalog "general" noRegex "我想請假三天").fallback_agents :=
  c10_route_deterministic scenarioCatalog scenarioCatalog "general" "general"
    noRegex noRegex "我想請假三天" "我想請假三天" rfl rfl rfl rfl

/-! ## Lemmas about the event interpreter -/

theorem countTrajectory_append (l1 l2 : List OutItem) :
    countTrajectory (l1 ++ l2) = countTrajectory l1 + countTrajectory l2 := by
  simp [countTrajectory, List.countP_append]

theorem countTrajectory_nil : countTrajectory [] = 0 := rfl

theorem countTrajectory_statusNote (s : String) (l : List OutItem) :
    countTrajectory (OutItem.statusNote s :: l) = countTrajectory l := by
  simp [countTrajectory, List.countP_cons]

theorem countTrajectory_liveText (s : String) (l : List OutItem) :
    countTrajectory (OutItem.liveText s :: l) = countTrajectory l := by
  simp [countTrajectory, List.countP_cons]

theorem countTrajectory_flush (entries : List TrajectoryEntry) (l : List OutItem) :
    countTrajectory (OutItem.trajectoryFlush entries :: l) = countTrajectory l + 1 := by
  simp [countTrajectory, List.countP_cons]

/-- Every item the artifact/message part loop yields is a live-text chunk. -/
theorem mem_partsTexts (parts : List Part) (a : OutItem) (ha : a ∈ partsTexts parts) :
    ∃ t, a = OutItem.liveText t := by
  obtain ⟨p, _, hpa⟩ := List.mem_filterMap.mp ha
  rcases h : get_part_text p with _ | t <;> rw [h] at hpa
  · simp at hpa
  · by_cases ht : t = ""
    · simp [ht] at hpa
    · simp only [if_neg ht, Option.some.injEq] at hpa
      exact ⟨t, hpa.symm⟩

theorem countTrajectory_partsTexts (parts : List Part) :
    countTrajectory (partsTexts parts) = 0 := by
  simp only [countTrajectory]
  rw [List.countP_eq_zero]
  intro a ha
  obtain ⟨t, rfl⟩ := mem_partsTexts parts a ha
  simp

theorem countTrajectory_flatten_partsTexts (artifacts : List (List Part)) :
    countTrajectory ((artifacts.map partsTexts).flatten) = 0 := by
  simp only [countTrajectory]
  rw [List.countP_eq_zero]
  intro a ha
  obtain ⟨l, hl, hal⟩ := List.mem_flatten.mp ha
  obtain ⟨parts, _, rfl⟩ := List.mem_map.mp hl
  obtain ⟨t, rfl⟩ := mem_partsTexts parts a hal
  simp

/-- `handleStatusPart` never touches `answer_started`. -/
theorem handleStatusPart_answer (trackTools : Bool) (agent_name : String)
    (acc : AgentTree × List OutItem) (part : Part) :
    ((handleStatusPart trackTools agent_name acc part).1).answer_started =
      acc.1.answer_started := by
  obtain ⟨tree, out⟩ := acc
  cases part <;> simp only [handleStatusPart, get_part_info] <;>
    (repeat' split) <;> simp [addToolCall]

/-- `handleStatusPart` sets `has_status` exactly when the part is thinking. -/
theorem handleStatusPart_has_status (trackTools : Bool) (agent_name : String)
    (acc : AgentTree × List OutItem) (part : Part) :
    ((handleStatusPart trackTools agent_name acc part).1).has_status =
      (acc.1.has_status || partThinking part) := by
  obtain ⟨tree, out⟩ := acc
  cases part <;>
    simp only [handleStatusPart, get_part_info, partThinking] <;>
    (repeat' split) <;> simp_all [addToolCall]

/-- `handleStatusPart` emits no trajectory item. -/
theorem handleStatusPart_count (trackTools : Bool) (agent_name : String)
    (acc : AgentTree × List OutItem) (part : Part) :
    countTrajectory ((handleStatusPart trackTools agent_name acc part).2) =
      countTrajectory acc.2 := by
  obtain ⟨tree, out⟩ := acc
  cases part <;> simp only [handleStatusPart, get_part_info] <;>
    (repeat' split) <;> simp [countTrajectory_append, countTrajectory]

/-- `handleStatusPart` preserves the invariant that a set `has_status` flag
comes with a nonempty trajectory (it appends the entry in the same step). -/
theorem handleStatusPart_invariant (trackTools : Bool) (agent_name : String)
    (acc : AgentTree × List OutItem) (part : Part)
    (h : acc.1.has_status = true → acc.1.trajectory ≠ []) :
    ((handleStatusPart trackTools agent_name acc part).1).has_status = true →
      ((handleStatusPart trackTools agent_name acc part).1).trajectory ≠ [] := by
  obtain ⟨tree, out⟩ := acc
  cases part <;> simp only [handleStatusPart, get_part_info] <;>
    (repeat' split) <;> simp_all [addToolCall]

theorem foldl_statusPart_answer (trackTools : Bool) (agent_name : String)
    (parts : List Part) (acc : AgentTree × List OutItem) :
    ((parts.foldl (handleStatusPart trackTools agent_name) acc).1).answer_started =
      acc.1.answer_started := by
  induction parts generalizing acc with
  | nil => rfl
  | cons p ps ih => rw [List.foldl_cons, ih, handleStatusPart_answer]

theorem foldl_statusPart_has_status (trackTools : Bool) (agent_name : String)
    (parts : List Part) (acc : AgentTree × List OutItem) :
    ((parts.foldl (handleStatusPart trackTools agent_name) acc).1).has_status =
      (acc.1.has_status || parts.any partThinking) := by
  induction parts generalizing acc with
  | nil => simp
  | cons p ps ih =>
    rw [List.foldl_cons, ih, handleStatusPart_has_status]
    simp [Bool.or_assoc]

theorem foldl_statusPart_count (trackTools : Bool) (agent_name : String)
    (parts : List Part) (acc : AgentTree × List OutItem) :
    countTrajectory ((parts.foldl (handleStatusPart trackTools agent_name) acc).2) =
      countTrajectory acc.2 := by
  induction parts generalizing acc with
  | nil => rfl
  | cons p ps ih => rw [List.foldl_cons, ih, handleStatusPart_count]

theorem foldl_statusPart_invariant (trackTools : Bool) (agent_name : String)
    (parts : List Part) (acc : AgentTree × List OutItem)
    (h : acc.1.has_status = true → acc.1.trajectory ≠ []) :
    ((parts.foldl (handleStatusPart trackTools agent_name) acc).1).has_status = true →
      ((parts.foldl (handleStatusPart trackTools agent_name) acc).1).trajectory ≠ [] := by
  induction parts generalizing acc with
  | nil => exact h
  | cons p ps ih =>
    rw [List.foldl_cons]
    exact ih _ (handleStatusPart_invariant trackTools agent_name acc p h)

theorem handleArtifactEvent_answer (tree : AgentTree) (parts : List Part) :
    ((handleArtifactEvent tree parts).1).answer_started =
      (tree.answer_started || tree.has_status) := by
  cases hh : tree.has_status <;> cases ha : tree.answer_started <;>
    simp [handleArtifactEvent, hh, ha]

theorem handleArtifactEvent_has_status (tree : AgentTree) (parts : List Part) :
    ((handleArtifactEvent tree parts).1).has_status = tree.has_status := by
  cases hh : tree.has_status <;> cases ha : tree.answer_started <;>
    simp [handleArtifactEvent, hh, ha]

theorem handleArtifactEvent_trajectory (tree : AgentTree) (parts : List Part) :
    ((handleArtifactEvent tree parts).1).trajectory = tree.trajectory := by
  cases hh : tree.has_status <;> cases ha : tree.answer_started <;>
    simp [handleArtifactEvent, hh, ha]

theorem handleArtifactEvent_count (tree : AgentTree) (parts : List Part)
    (h : tree.has_status = true → tree.trajectory ≠ []) :
    countTrajectory (handleArtifactEvent tree parts).2 =
      if tree.has_status && !tree.answer_started then 1 else 0 := by
  cases hh : tree.has_status with
  | false =>
    cases ha : tree.answer_started <;>
      simp [handleArtifactEvent, hh, ha, countTrajectory_partsTexts]
  | true =>
    cases ha : tree.answer_started with
    | true => simp [handleArtifactEvent, hh, ha, countTrajectory_partsTexts]
    | false =>
      rcases htr : tree.trajectory with _ | ⟨x, xs⟩
      · exact absurd (h hh) (by simp [htr])
      · simp [handleArtifactEvent, hh, ha, htr, countTrajectory_append,
          countTrajectory_statusNote, countTrajectory_flush, countTrajectory_partsTexts,
          countTrajectory_liveText]

/-- The flush step at the status→answer transition, fully computed. -/
theorem handleArtifactEvent_flush (tree : AgentTree) (parts : List Part)
    (hh : tree.has_status = true) (ha : tree.answer_started = false)
    (htr : tree.trajectory ≠ []) :
    handleArtifactEvent tree parts =
      ({ tree with answer_started := true },
       OutItem.statusNote "Completed" :: OutItem.trajectoryFlush tree.trajectory ::
         partsTexts parts) := by
  rcases htr' : tree.trajectory with _ | ⟨x, xs⟩
  · exact absurd htr' htr
  · simp [handleArtifactEvent, hh, ha, htr']

/-- `answer_started` after one event: it is set exactly by an artifact-update
event arriving while `has_status` holds. -/
theorem handle_answer (tree : AgentTree) (e : Event) :
    ((handle_sse_event tree e).1).answer_started =
      (tree.answer_started || ((artifactEventParts e).isSome && tree.has_status)) := by
  cases e with
  | result r =>
    cases r with
    | message parts => simp [handle_sse_event, extract_from_result, artifactEventParts]
    | task id state artifacts statusMessage =>
      simp only [handle_sse_event, extract_from_result, artifactEventParts]
      repeat' split
      all_goals simp
    | statusUpdate statusMessage =>
      cases statusMessage with
      | none => simp [handle_sse_event, extract_from_result, artifactEventParts]
      | some parts =>
        simp only [handle_sse_event, extract_from_result, artifactEventParts]
        rw [foldl_statusPart_answer]
        simp
    | artifactUpdate parts =>
      simp only [handle_sse_event, extract_from_result, artifactEventParts]
      rw [handleArtifactEvent_answer]
      simp
    | other => simp [handle_sse_event, extract_from_result, artifactEventParts]
  | error message => simp [handle_sse_event, artifactEventParts]
  | statusUpdate agentName taskId state statusMessage =>
    cases statusMessage with
    | none => simp [handle_sse_event, artifactEventParts]
    | some parts =>
      simp only [handle_sse_event, artifactEventParts]
      rw [foldl_statusPart_answer]
      simp
  | artifactUpdate parts =>
    simp only [handle_sse_event, artifactEventParts]
    rw [handleArtifactEvent_answer]
    simp
  | toolCall toolName agentName => simp [handle_sse_event, artifactEventParts]
  | message parts => simp [handle_sse_event, artifactEventParts]
  | other => simp [handle_sse_event, artifactEventParts]

/-- `has_status` after one event: it is set exactly by a status event carrying
a thinking part. -/
theorem handle_has_status (tree : AgentTree) (e : Event) :
    ((handle_sse_event tree e).1).has_status = (tree.has_status || eventThinking e) := by
  cases e with
  | result r =>
    cases r with
    | message parts => simp [handle_sse_event, extract_from_result, eventThinking]
    | task id state artifacts statusMessage =>
      simp only [handle_sse_event, extract_from_result, eventThinking]
      repeat' split
      all_goals simp
    | statusUpdate statusMessage =>
      cases statusMessage with
      | none => simp [handle_sse_event, extract_from_result, eventThinking]
      | some parts =>
        simp only [handle_sse_event, extract_from_result, eventThinking]
        rw [foldl_statusPart_has_status]
    | artifactUpdate parts =>
      simp only [handle_sse_event, extract_from_result, eventThinking]
      rw [handleArtifactEvent_has_status]
      simp
    | other => simp [handle_sse_event, extract_from_result, eventThinking]
  | error message => simp [handle_sse_event, eventThinking]
  | statusUpdate agentName taskId state statusMessage =>
    cases statusMessage with
    | none => simp [handle_sse_event, eventThinking]
    | some parts =>
      simp only [handle_sse_event, eventThinking]
      rw [foldl_statusPart_has_status]
  | artifactUpdate parts =>
    simp only [handle_sse_event, eventThinking]
    rw [handleArtifactEvent_has_status]
    simp
  | toolCall toolName agentName => simp [handle_sse_event, eventThinking]
  | message parts => simp [handle_sse_event, eventThinking]
  | other => simp [handle_sse_event, eventThinking]

/-- The invariant "`has_status` implies a nonempty trajectory" is preserved by
every event. -/
theorem handle_invariant (tree : AgentTree) (e : Event)
    (h : tree.has_status = true → tree.trajectory ≠ []) :
    ((handle_sse_event tree e).1).has_status = true →
      ((handle_sse_event tree e).1).trajectory ≠ [] := by
  cases e with
  | result r =>
    cases r with
    | message parts => exact fun hh => h hh
    | task id state artifacts statusMessage =>
      simp only [handle_sse_event, extract_from_result]
      repeat' split
      all_goals exact fun hh => h hh
    | statusUpdate statusMessage =>
      cases statusMessage with
      | none => exact fun hh => h hh
      | some parts =>
        simp only [handle_sse_event, extract_from_result]
        exact foldl_statusPart_invariant false "" parts _ h
    | artifactUpdate parts =>
      simp only [handle_sse_event, extract_from_result]
      rw [handleArtifactEvent_has_status, handleArtifactEvent_trajectory]
      exact h
    | other => exact fun hh => h hh
  | error message => exact fun hh => h hh
  | statusUpdate agentName taskId state statusMessage =>
    cases statusMessage with
    | none => exact fun hh => h hh
    | some parts =>
      simp only [handle_sse_event]
      exact foldl_statusPart_invariant true _ parts _ (by exact h)
  | artifactUpdate parts =>
    simp only [handle_sse_event]
    rw [handleArtifactEvent_has_status, handleArtifactEvent_trajectory]
    exact h
  | toolCall toolName agentName => exact fun hh => h hh
  | message parts => exact fun hh => h hh
  | other => exact fun hh => h hh

/-- Trajectory items are emitted exactly at the false→true transition of
`answer_started` (given the trajectory-nonemptiness invariant). -/
theorem handle_count (tree : AgentTree) (e : Event)
    (h : tree.has_status = true → tree.trajectory ≠ []) :
    countTrajectory (handle_sse_event tree e).2 =
      if (artifactEventParts e).isSome && tree.has_status && !tree.answer_started
      then 1 else 0 := by
  cases e with
  | result r =>
    cases r with
    | message parts =>
      simp [handle_sse_event, extract_from_result, artifactEventParts,
        countTrajectory_partsTexts]
    | task id state artifacts statusMessage =>
      have hz : countTrajectory
          (handle_sse_event tree (.result (.task id state artifacts statusMessage))).2 = 0 := by
        simp only [handle_sse_event, extract_from_result]
        split
        · split
          · exact countTrajectory_partsTexts _
          · exact countTrajectory_nil
        · exact countTrajectory_flatten_partsTexts artifacts
      rw [hz]
      simp [artifactEventParts]
    | statusUpdate statusMessage =>
      cases statusMessage with
      | none =>
        simp [handle_sse_event, extract_from_result, artifactEventParts, countTrajectory_nil]
      | some parts =>
        have hz : countTrajectory
            (handle_sse_event tree (.result (.statusUpdate (some parts)))).2 = 0 := by
          simp only [handle_sse_event, extract_from_result]
          rw [foldl_statusPart_count]
          exact countTrajectory_nil
        rw [hz]
        simp [artifactEventParts]
    | artifactUpdate parts =>
      have hc : countTrajectory
          (handle_sse_event tree (.result (.artifactUpdate parts))).2 =
            if tree.has_status && !tree.answer_started then 1 else 0 := by
        simp only [handle_sse_event, extract_from_result]
        exact handleArtifactEvent_count tree parts h
      rw [hc]
      simp [artifactEventParts]
    | other => simp [handle_sse_event, extract_from_result, artifactEventParts, countTrajectory_nil]
  | error message =>
    simp [handle_sse_event, artifactEventParts, countTrajectory_liveText, countTrajectory_nil]
  | statusUpdate agentName taskId state statusMessage =>
    cases statusMessage with
    | none => simp [handle_sse_event, artifactEventParts, countTrajectory_nil]
    | some parts =>
      have hz : countTrajectory
          (handle_sse_event tree (.statusUpdate agentName taskId state (some parts))).2 = 0 := by
        simp only [handle_sse_event]
        rw [foldl_statusPart_count]
        exact countTrajectory_nil
      rw [hz]
      simp [artifactEventParts]
  | artifactUpdate parts =>
    have hc : countTrajectory (handle_sse_event tree (.artifactUpdate parts)).2 =
        if tree.has_status && !tree.answer_started then 1 else 0 := by
      simp only [handle_sse_event]
      exact handleArtifactEvent_count tree parts h
    rw [hc]
    simp [artifactEventParts]
  | toolCall toolName agentName =>
    simp [handle_sse_event, artifactEventParts, countTrajectory_nil]
  | message parts =>
    simp [handle_sse_event, artifactEventParts, countTrajectory_partsTexts]
  | other => simp [handle_sse_event, artifactEventParts, countTrajectory_nil]

theorem process_sse_stream_cons (tree : AgentTree) (e : Event) (es : List Event) :
    process_sse_stream tree (e :: es) =
      ((process_sse_stream (handle_sse_event tree e).1 es).1,
       (handle_sse_event tree e).2 ++
         (process_sse_stream (handle_sse_event tree e).1 es).2) := rfl

theorem process_sse_stream_append (tree : AgentTree) (l1 l2 : List Event) :
    process_sse_stream tree (l1 ++ l2) =
      ((process_sse_stream (process_sse_stream tree l1).1 l2).1,
       (process_sse_stream tree l1).2 ++
         (process_sse_stream (process_sse_stream tree l1).1 l2).2) := by
  induction l1 generalizing tree with
  | nil => simp [process_sse_stream]
  | cons e es ih =>
    simp only [List.cons_append, process_sse_stream_cons, ih]
    simp [List.append_assoc]

theorem handle_answer_mono (tree : AgentTree) (e : Event)
    (h : tree.answer_started = true) :
    ((handle_sse_event tree e).1).answer_started = true := by
  rw [handle_answer, h]
  simp

theorem process_answer_mono (tree : AgentTree) (es : List Event)
    (h : tree.answer_started = true) :
    ((process_sse_stream tree es).1).answer_started = true := by
  induction es generalizing tree with
  | nil => exact h
  | cons e es ih =>
    rw [process_sse_stream_cons]
    exact ih _ (handle_answer_mono tree e h)

theorem handle_has_status_mono (tree : AgentTree) (e : Event)
    (h : tree.has_status = true) :
    ((handle_sse_event tree e).1).has_status = true := by
  rw [handle_has_status, h]
  simp

theorem process_has_status_mono (tree : AgentTree) (es : List Event)
    (h : tree.has_status = true) :
    ((process_sse_stream tree es).1).has_status = true := by
  induction es generalizing tree with
  | nil => exact h
  | cons e es ih =>
    rw [process_sse_stream_cons]
    exact ih _ (handle_has_status_mono tree e h)

theorem process_invariant (tree : AgentTree) (es : List Event)
    (h : tree.has_status = true → tree.trajectory ≠ []) :
    ((process_sse_stream tree es).1).has_status = true →
      ((process_sse_stream tree es).1).trajectory ≠ [] := by
  induction es generalizing tree with
  | nil => exact h
  | cons e es ih =>
    rw [process_sse_stream_cons]
    exact ih _ (handle_invariant tree e h)

/-- Before any thinking event has arrived, `has_status` and `answer_started`
both stay `false` (artifact events seen in that window do not start the
answer). -/
theorem process_quiet (tree : AgentTree) (es : List Event)
    (hes : ∀ e ∈ es, eventThinking e = false)
    (hh : tree.has_status = false) (ha : tree.answer_started = false) :
    ((process_sse_stream tree es).1).has_status = false ∧
      ((process_sse_stream tree es).1).answer_started = false := by
  induction es generalizing tree with
  | nil => exact ⟨hh, ha⟩
  | cons e es ih =>
    rw [process_sse_stream_cons]
    refine ih _ ?_ ?_ ?_
    · exact fun x hx => hes x (List.mem_cons_of_mem e hx)
    · rw [handle_has_status, hh, hes e (List.mem_cons_self e es)]
      rfl
    · rw [handle_answer, ha, hh]
      simp

/-- In a window with no artifact events, `answer_started` does not change. -/
theorem process_no_artifact (tree : AgentTree) (es : List Event)
    (hes : ∀ e ∈ es, artifactEventParts e = none) :
    ((process_sse_stream tree es).1).answer_started = tree.answer_started := by
  induction es generalizing tree with
  | nil => rfl
  | cons e es ih =>
    rw [process_sse_stream_cons]
    rw [ih _ (fun x hx => hes x (List.mem_cons_of_mem e hx))]
    rw [handle_answer, hes e (List.mem_cons_self e es)]
    simp

/-- Over a whole event sequence, the number of trajectory items equals one
exactly when the run ends with `answer_started` set, having started unset
(given the invariant at the start state). -/
theorem process_count (tree : AgentTree) (es : List Event)
    (h : tree.has_status = true → tree.trajectory ≠ []) :
    countTrajectory (process_sse_stream tree es).2 =
      if ((process_sse_stream tree es).1).answer_started && !tree.answer_started
      then 1 else 0 := by
  induction es generalizing tree with
  | nil => simp [process_sse_stream, countTrajectory_nil]
  | cons e es ih =>
    rw [process_sse_stream_cons]
    rw [countTrajectory_append]
    rw [handle_count tree e h, ih _ (handle_invariant tree e h)]
    cases hp : tree.answer_started with
    | true =>
      have hq1 : ((handle_sse_event tree e).1).answer_started = true :=
        handle_answer_mono tree e hp
      have hr : ((process_sse_stream (handle_sse_event tree e).1 es).1).answer_started = true :=
        process_answer_mono _ es hq1
      rw [hq1, hr]
      simp
    | false =>
      have hq := handle_answer tree e
      rw [hp, Bool.false_or] at hq
      cases hart : (artifactEventParts e).isSome with
      | false =>
        rw [hart, Bool.false_and] at hq
        simp [hq]
      | true =>
        rw [hart, Bool.true_and] at hq
        cases hh2 : tree.has_status with
        | false =>
          rw [hh2] at hq
          simp [hq]
        | true =>
          rw [hh2] at hq
          have hr : ((process_sse_stream (handle_sse_event tree e).1 es).1).answer_started =
              true := process_answer_mono _ es hq
          simp [hq, hr]

/-- A thinking event is a status event, never an artifact event. -/
theorem eventThinking_not_artifact (e : Event) (h : eventThinking e = true) :
    artifactEventParts e = none := by
  cases e with
  | result r => cases r <;> simp_all [eventThinking, artifactEventParts]
  | statusUpdate a t st sm => rfl
  | _ => simp_all [eventThinking, artifactEventParts]

/-- Both artifact-update event shapes reduce to `handleArtifactEvent` on their
parts. -/
theorem handle_sse_event_artifact (tree : AgentTree) (e : Event) (parts : List Part)
    (h : artifactEventParts e = some parts) :
    handle_sse_event tree e = handleArtifactEvent tree parts := by
  cases e with
  | result r =>
    cases r <;> simp_all [artifactEventParts, handle_sse_event, extract_from_result]
  | artifactUpdate ps =>
    simp_all [artifactEventParts, handle_sse_event]
  | _ => simp_all [artifactEventParts]

/-- A hidden (truthy-text, `agent_end`) part is a no-op for the status-message
part loop. -/
theorem handleStatusPart_hidden (trackTools : Bool) (agent_name : String)
    (acc : AgentTree × List OutItem) (part : Part) (h : partHidden part = true) :
    handleStatusPart trackTools agent_name acc part = acc := by
  obtain ⟨tree, out⟩ := acc
  cases part with
  | nonDict => exact absurd h (by simp [partHidden, get_part_info])
  | textKind t md =>
    rcases t with _ | text
    · exact absurd h (by simp [partHidden, get_part_info])
    · by_cases ht : text = ""
      · exact absurd h (by simp [partHidden, get_part_info, ht])
      · have hhid : is_hidden_event md = true := by
          simpa [partHidden, get_part_info, ht] using h
        simp [handleStatusPart, get_part_info, ht, hhid]
  | rootWrap t md =>
    rcases t with _ | text
    · exact absurd h (by simp [partHidden, get_part_info])
    · by_cases ht : text = ""
      · exact absurd h (by simp [partHidden, get_part_info, ht])
      · have hhid : is_hidden_event md = true := by
          simpa [partHidden, get_part_info, ht] using h
        simp [handleStatusPart, get_part_info, ht, hhid]
  | plain t md =>
    rcases t with _ | text
    · exact absurd h (by simp [partHidden, get_part_info])
    · by_cases ht : text = ""
      · exact absurd h (by simp [partHidden, get_part_info, ht])
      · have hhid : is_hidden_event md = true := by
          simpa [partHidden, get_part_info, ht] using h
        simp [handleStatusPart, get_part_info, ht, hhid]

/-- The status-message part loop ignores hidden parts entirely. -/
theorem foldl_statusPart_removeHidden (trackTools : Bool) (agent_name : String)
    (parts : List Part) (acc : AgentTree × List OutItem) :
    parts.foldl (handleStatusPart trackTools agent_name) acc =
      (removeHiddenParts parts).foldl (handleStatusPart trackTools agent_name) acc := by
  induction parts generalizing acc with
  | nil => rfl
  | cons p ps ih =>
    by_cases hp : partHidden p = true
    · rw [List.foldl_cons, handleStatusPart_hidden _ _ _ _ hp]
      have hr : removeHiddenParts (p :: ps) = removeHiddenParts ps := by
        simp [removeHiddenParts, List.filter_cons, hp]
      rw [hr, ih]
    · have hp' : partHidden p = false := by simpa using hp
      have hr : removeHiddenParts (p :: ps) = p :: removeHiddenParts ps := by
        simp [removeHiddenParts, List.filter_cons, hp']
      rw [hr, List.foldl_cons, List.foldl_cons, ih]

/-- A part with truthy text always contributes its text to the artifact/message
part loop (the loop never consults metadata). -/
theorem liveText_mem_partsTexts (parts : List Part) (p : Part) (t : String)
    (hp : p ∈ parts) (hpt : get_part_text p = some t) (ht : t ≠ "") :
    OutItem.liveText t ∈ partsTexts parts := by
  apply List.mem_filterMap.mpr
  refine ⟨p, hp, ?_⟩
  rw [hpt]
  simp [ht]

/-! ## Claim C2 — trajectory single flush -/

/-- C2, counterexample.  The sequence `[artifactX, thinkingEvent, artifactY]`
contains a thinking status event followed by an artifact-update event, so it
satisfies the claim's hypotheses; yet the live text `"x"` — derived from the
artifact event at position 0 — precedes the unique `trajectoryFlush` item
(position 3), refuting "that item appears before any live-text item derived
from any artifact".  (The flush does come before the texts of artifacts that
follow the first thinking event, which is the amended ordering.) -/
theorem c2_counterexample :
    (process_sse_stream initialTree [artifactX, thinkingEvent, artifactY]).2 =
      [OutItem.liveText "x", OutItem.statusNote "Analyzing",
       OutItem.statusNote "Completed",
       OutItem.trajectoryFlush [⟨"Analyzing", "llm_thinking", some thinkingMeta⟩],
       OutItem.liveText "y"] := by
  decide

/-- C2, amended: decompose the event sequence as
`l1 ++ eT :: l2 ++ eA :: l3` where `eT` is the first thinking status event
(`l1` contains none) and `eA` is the first artifact-update event after it
(`l2` contains no artifact events).  Then (i) exactly one trajectory item is
produced over the whole sequence; (ii) the outputs split as the prefix
outputs, then `Completed` status, the single trajectory flush and `eA`'s
texts, then the remaining outputs — so the flush precedes every live-text item
derived from `eA` or any later artifact (texts of artifacts *before* the first
thinking event may precede it, as the counterexample shows); (iii) the prefix
contains no trajectory item; and `answer_started` transitions false→true
exactly at `eA` and stays true. -/
theorem c2_trajectory_single_flush_amended
    (l1 : List Event) (eT : Event) (l2 : List Event) (parts : List Part) (eA : Event)
    (l3 : List Event)
    (hquiet : ∀ e ∈ l1, eventThinking e = false)
    (hthink : eventThinking eT = true)
    (hnoart : ∀ e ∈ l2, artifactEventParts e = none)
    (hart : artifactEventParts eA = some parts) :
    countTrajectory (process_sse_stream initialTree (l1 ++ eT :: l2 ++ eA :: l3)).2 = 1 ∧
    (process_sse_stream initialTree (l1 ++ eT :: l2 ++ eA :: l3)).2 =
      (process_sse_stream initialTree (l1 ++ eT :: l2)).2 ++
        (OutItem.statusNote "Completed" ::
          OutItem.trajectoryFlush
            ((process_sse_stream initialTree (l1 ++ eT :: l2)).1).trajectory ::
          partsTexts parts) ++
        (process_sse_stream
          (handle_sse_event (process_sse_stream initialTree (l1 ++ eT :: l2)).1 eA).1 l3).2 ∧
    countTrajectory (process_sse_stream initialTree (l1 ++ eT :: l2)).2 = 0 ∧
    ((process_sse_stream initialTree (l1 ++ eT :: l2)).1).answer_started = false ∧
    ((handle_sse_event (process_sse_stream initialTree (l1 ++ eT :: l2)).1 eA).1).answer_started
      = true ∧
    ((process_sse_stream initialTree (l1 ++ eT :: l2 ++ eA :: l3)).1).answer_started = true := by
  have hinv0 : initialTree.has_status = true → initialTree.trajectory ≠ [] := by
    intro hh
    exact absurd hh (by decide)
  have hsplit : l1 ++ eT :: l2 ++ eA :: l3 = (l1 ++ eT :: l2) ++ eA :: l3 := by
    simp [List.append_assoc]
  -- facts about the state after the quiet prefix l1
  have hq1 := process_quiet initialTree l1 hquiet rfl rfl
  -- the state after l1 ++ eT :: l2, related to stepping through eT then l2
  have hsB : (process_sse_stream initialTree (l1 ++ eT :: l2)).1 =
      (process_sse_stream
        (handle_sse_event (process_sse_stream initialTree l1).1 eT).1 l2).1 := by
    simp only [process_sse_stream_append, process_sse_stream_cons]
  have hhas2 : ((handle_sse_event (process_sse_stream initialTree l1).1 eT).1).has_status
      = true := by
    rw [handle_has_status, hthink]
    simp
  have hans2 : ((handle_sse_event (process_sse_stream initialTree l1).1 eT).1).answer_started
      = false := by
    rw [handle_answer, hq1.2, hq1.1, eventThinking_not_artifact eT hthink]
    rfl
  have hsB_has : ((process_sse_stream initialTree (l1 ++ eT :: l2)).1).has_status = true := by
    rw [hsB]
    exact process_has_status_mono _ l2 hhas2
  have hsB_ans : ((process_sse_stream initialTree (l1 ++ eT :: l2)).1).answer_started
      = false := by
    rw [hsB, process_no_artifact _ l2 hnoart]
    exact hans2
  have hsB_inv := process_invariant initialTree (l1 ++ eT :: l2) hinv0
  have hsB_tr : ((process_sse_stream initialTree (l1 ++ eT :: l2)).1).trajectory ≠ [] :=
    hsB_inv hsB_has
  -- the eA step computed
  have hstep : handle_sse_event (process_sse_stream initialTree (l1 ++ eT :: l2)).1 eA =
      ({ (process_sse_stream initialTree (l1 ++ eT :: l2)).1 with answer_started := true },
       OutItem.statusNote "Completed" ::
         OutItem.trajectoryFlush
           ((process_sse_stream initialTree (l1 ++ eT :: l2)).1).trajectory ::
         partsTexts parts) := by
    rw [handle_sse_event_artifact _ eA parts hart]
    exact handleArtifactEvent_flush _ parts hsB_has hsB_ans hsB_tr
  have hansA : ((handle_sse_event (process_sse_stream initialTree (l1 ++ eT :: l2)).1 eA).1).answer_started = true := by
    rw [hstep]
  -- full-run final state and outputs
  have hfinal_state : (process_sse_stream initialTree (l1 ++ eT :: l2 ++ eA :: l3)).1 =
      (process_sse_stream
        (handle_sse_event (process_sse_stream initialTree (l1 ++ eT :: l2)).1 eA).1 l3).1 := by
    rw [hsplit]
    simp only [process_sse_stream_append, process_sse_stream_cons]
  have hfinal_ans : ((process_sse_stream initialTree (l1 ++ eT :: l2 ++ eA :: l3)).1).answer_started = true := by
    rw [hfinal_state]
    exact process_answer_mono _ l3 hansA
  have houts : (process_sse_stream initialTree (l1 ++ eT :: l2 ++ eA :: l3)).2 =
      (process_sse_stream initialTree (l1 ++ eT :: l2)).2 ++
        (OutItem.statusNote "Completed" ::
          OutItem.trajectoryFlush
            ((process_sse_stream initialTree (l1 ++ eT :: l2)).1).trajectory ::
          partsTexts parts) ++
        (process_sse_stream
          (handle_sse_event (process_sse_stream initialTree (l1 ++ eT :: l2)).1 eA).1 l3).2 := by
    rw [hsplit, process_sse_stream_append, process_sse_stream_cons, hstep]
    simp [List.append_assoc]
  have hc_prefix : countTrajectory (process_sse_stream initialTree (l1 ++ eT :: l2)).2 = 0 := by
    rw [process_count initialTree _ hinv0, hsB_ans]
    rfl
  have hc_total : countTrajectory
      (process_sse_stream initialTree (l1 ++ eT :: l2 ++ eA :: l3)).2 = 1 := by
    rw [process_count initialTree _ hinv0, hfinal_ans]
    rfl
  exact ⟨hc_total, houts, hc_prefix, hsB_ans, hansA, hfinal_ans⟩

/-- C2, witness for the amended theorem: the minimal Scenario-D-like sequence
`[thinkingEvent, artifactY]`. -/
theorem c2_trajectory_single_flush_witness :
    countTrajectory (process_sse_stream initialTree
      ([] ++ thinkingEvent :: [] ++ artifactY :: [])).2 = 1 ∧
    (process_sse_stream initialTree ([] ++ thinkingEvent :: [] ++ artifactY :: [])).2 =
      (process_sse_stream initialTree ([] ++ thinkingEvent :: [])).2 ++
        (OutItem.statusNote "Completed" ::
          OutItem.trajectoryFlush
            ((process_sse_stream initialTree ([] ++ thinkingEvent :: [])).1).trajectory ::
          partsTexts [Part.textKind (some "y") none]) ++
        (process_sse_stream
          (handle_sse_event (process_sse_stream initialTree ([] ++ thinkingEvent :: [])).1
            artifactY).1 []).2 ∧
    countTrajectory (process_sse_stream initialTree ([] ++ thinkingEvent :: [])).2 = 0 ∧
    ((process_sse_stream initialTree ([] ++ thinkingEvent :: [])).1).answer_started = false ∧
    ((handle_sse_event (process_sse_stream initialTree ([] ++ thinkingEvent :: [])).1
        artifactY).1).answer_started = true ∧
    ((process_sse_stream initialTree
        ([] ++ thinkingEvent :: [] ++ artifactY :: [])).1).answer_started = true :=
  c2_trajectory_single_flush_amended [] thinkingEvent [] [Part.textKind (some "y") none]
    artifactY [] (by intro e he; cases he) (by decide) (by intro e he; cases he) (by decide)

/-! ## Claim C6 — error handling in the stream -/

/-- C6, counterexample.  The claim asserts that after an error event no later
event contributes output.  Processing `[error "boom", message "hi"]` yields
the formatted error chunk *and then* `"hi"` from the later message event:
`_process_sse_stream` keeps iterating `data:` lines after
`_handle_sse_event` returns from the error branch. -/
theorem c6_counterexample :
    (process_sse_stream initialTree
        [.error (some "boom"), .message [.textKind (some "hi") none]]).2 =
      [OutItem.liveText "**Error:** boom", OutItem.liveText "hi"] := by
  decide

/-- C6, amended: an error event contributes exactly one live-text item
carrying the formatted `"**Error:** ..."` message and leaves the interpreter
state unchanged; the stream keeps being consumed, so later events contribute
their outputs as if the error had not occurred (the `return` in
`_handle_sse_event` only ends that event's generator, not the
`_process_sse_stream` loop). -/
theorem c6_error_event_amended (tree : AgentTree) (message : Option String)
    (rest : List Event) :
    process_sse_stream tree (.error message :: rest) =
      ((process_sse_stream tree rest).1,
       OutItem.liveText ("**Error:** " ++ message.getD "Unknown error") ::
         (process_sse_stream tree rest).2) := by
  rw [process_sse_stream_cons]
  rfl

/-! ## Claim C7 — hidden (`agent_end`) event suppression -/

/-- C7, counterexample.  The claim asserts an `agent_end` part never reaches
any output, whatever event kind carries it.  A `message` event whose only part
is text-bearing with `agent_end` metadata *does* have its text yielded: the
message/artifact part loops use `_get_part_text` and never consult
`_is_hidden_event`. -/
theorem c7_counterexample :
    is_hidden_event (some agentEndMeta) = true ∧
    (handle_sse_event initialTree hiddenMessageEvent).2 = [OutItem.liveText "bye"] := by
  decide

/-- C7, amended: hidden (`agent_end`) suppression applies exactly on the
status-update paths — dropping the hidden truthy-text parts of a status
message changes nothing (they reach neither trajectory nor any output), on
both the direct `_handle_sse_event` path and the `_extract_from_result` path —
while the `message` and `artifact-update` part loops yield every truthy part
text without consulting metadata, so an `agent_end` part carried there does
appear as live text. -/
theorem c7_hidden_suppression_amended :
    (∀ (tree : AgentTree) (agentName taskId : Option String) (state : String)
        (parts : List Part),
      handle_sse_event tree (.statusUpdate agentName taskId state (some parts)) =
        handle_sse_event tree
          (.statusUpdate agentName taskId state (some (removeHiddenParts parts)))) ∧
    (∀ (tree : AgentTree) (parts : List Part),
      extract_from_result tree (.statusUpdate (some parts)) =
        extract_from_result tree (.statusUpdate (some (removeHiddenParts parts)))) ∧
    (∀ (tree : AgentTree) (parts : List Part) (p : Part) (t : String),
      p ∈ parts → get_part_text p = some t → t ≠ "" →
        OutItem.liveText t ∈ (handle_sse_event tree (.message parts)).2) ∧
    (∀ (tree : AgentTree) (parts : List Part) (p : Part) (t : String),
      p ∈ parts → get_part_text p = some t → t ≠ "" →
        OutItem.liveText t ∈ (handle_sse_event tree (.artifactUpdate parts)).2) := by
  refine ⟨?_, ?_, ?_, ?_⟩
  · intro tree agentName taskId state parts
    simp only [handle_sse_event]
    rw [foldl_statusPart_removeHidden]
  · intro tree parts
    simp only [extract_from_result]
    rw [foldl_statusPart_removeHidden]
  · intro tree parts p t hp hpt ht
    simp only [handle_sse_event]
    exact liveText_mem_partsTexts parts p t hp hpt ht
  · intro tree parts p t hp hpt ht
    have hstep : (handle_sse_event tree (.artifactUpdate parts)).2 =
        (handleArtifactEvent tree parts).2 := rfl
    rw [hstep]
    simp only [handleArtifactEvent]
    exact List.mem_append_right _ (liveText_mem_partsTexts parts p t hp hpt ht)

/-- C7, witness for the amended theorem: an `agent_end` part is dropped from a
status message but yielded verbatim from a message event. -/
theorem c7_hidden_suppression_witness :
    (handle_sse_event initialTree (.statusUpdate (some "orchestrator") none "working"
        (some [Part.textKind (some "bye") (some agentEndMeta)])) =
      handle_sse_event initialTree (.statusUpdate (some "orchestrator") none "working"
        (some (removeHiddenParts [Part.textKind (some "bye") (some agentEndMeta)])))) ∧
    OutItem.liveText "bye" ∈
      (handle_sse_event initialTree
        (.message [Part.textKind (some "bye") (some agentEndMeta)])).2 :=
  ⟨c7_hidden_suppression_amended.1 initialTree (some "orchestrator") none "working"
      [Part.textKind (some "bye") (some agentEndMeta)],
   c7_hidden_suppression_amended.2.2.1 initialTree
      [Part.textKind (some "bye") (some agentEndMeta)]
      (Part.textKind (some "bye") (some agentEndMeta)) "bye" (by simp) (by decide) (by decide)⟩

end UatOrchestrator
